import Mathlib

/-!
Shallow embedding of `src/cache.rs` from the `proxydis` repository.

The Rust code stores `HashMap<String, Option<CacheValue<T>>>`; we model the
hash map extensionally as a function `String → Option (Option (CacheValue T))`
(`none` = key absent, `some none` = key declared but empty, `some (some cv)` =
key declared with a timed value).  The wall clock (`time_now()`, u128
milliseconds since the epoch) is passed explicitly as a `Nat` argument to the
operations that sample it.  The single u128 addition `ttl + time_now()` in
`CacheValue::new` is modelled with an explicit wrap modulo `2 ^ 128`.
-/

/-- Modulus of the Rust `u128` type. -/
def U128MOD : Nat := 2 ^ 128

/-- Embeds Rust `CacheOption<T>` from `src/cache.rs`. -/
inductive CacheOption (T : Type) where
  | Value (value : T)
  | Empty
  | Undefined
  | Expired
deriving DecidableEq, Repr

/-- Embeds `CacheOption::unwrap`: the Rust method returns the payload of
`Value` and otherwise panics with the message below; the panic is modelled
as the `Except.error` branch. -/
def CacheOption.unwrap {T : Type} : CacheOption T → Except String T
  | CacheOption.Value value => Except.ok value
  | _ => Except.error "There is no value for unwrap."

/-- Embeds `CacheOption::unwrap_or`. -/
def CacheOption.unwrap_or {T : Type} (o : CacheOption T) (orv : T) : T :=
  match o with
  | CacheOption.Value value => value
  | _ => orv

/-- Embeds Rust `CacheValue<T>` (field `ttl_timestamp` is the absolute u128
expiry instant). -/
structure CacheValue (T : Type) where
  value : T
  ttl_timestamp : Nat
deriving DecidableEq, Repr

/-- Embeds `CacheValue::new`: `ttl_timestamp = ttl + time_now()`, a u128
addition, hence the wrap modulo `2 ^ 128`; `now` is the sampled clock. -/
def CacheValue.new {T : Type} (value : T) (ttl : Nat) (now : Nat) : CacheValue T :=
  { value := value, ttl_timestamp := (ttl + now) % U128MOD }

/-- Embeds Rust `Cache<T>`: the `items` hash map is modelled extensionally. -/
structure Cache (T : Type) where
  items : String → Option (Option (CacheValue T))
  ttl : Nat

/-- Embeds `Cache::new`. -/
def Cache.new (T : Type) (ttl : Nat) : Cache T :=
  { items := fun _ => none, ttl := ttl }

/-- Embeds `Cache::create` (the spec's `declare`): inserts `None` for the key,
overwriting any existing slot. -/
def Cache.create {T : Type} (c : Cache T) (key : String) : Cache T :=
  { c with items := fun k => if k = key then some none else c.items k }

/-- Embeds `Cache::update` (the spec's `write`): if the key is present its slot
is overwritten with a fresh `CacheValue`; otherwise the code only calls
`create` (the value argument is dropped). `now` is the sampled clock. -/
def Cache.update {T : Type} (c : Cache T) (key : String) (value : T) (now : Nat) : Cache T :=
  match c.items key with
  | some _ =>
      { c with items := fun k =>
          if k = key then some (some (CacheValue.new value c.ttl now)) else c.items k }
  | none => c.create key

/-- Embeds `Cache::get` (the spec's `read`); `now` is the sampled clock. -/
def Cache.get {T : Type} (c : Cache T) (key : String) (now : Nat) : CacheOption T :=
  match c.items key with
  | some (some cache_value) =>
      if cache_value.ttl_timestamp ≥ now then CacheOption.Value cache_value.value
      else CacheOption.Expired
  | some none => CacheOption.Empty
  | none => CacheOption.Undefined

/-- Embeds `Cache::remove`: returns the removed slot (if any) paired with the
cache after deletion. -/
def Cache.remove {T : Type} (c : Cache T) (key : String) :
    Option (Option (CacheValue T)) × Cache T :=
  (c.items key, { c with items := fun k => if k = key then none else c.items k })

/-- Embeds `Cache::clean` (the spec's `clear`): resets a present key's slot to
`None`; a missing key is left alone. -/
def Cache.clean {T : Type} (c : Cache T) (key : String) : Cache T :=
  match c.items key with
  | some _ => { c with items := fun k => if k = key then some none else c.items k }
  | none => c

/-- Operations on a cache, each write carrying the clock value it samples;
used to state history invariants. -/
inductive Op (T : Type) where
  | create (key : String)
  | update (key : String) (value : T) (now : Nat)
  | remove (key : String)
  | clean (key : String)
deriving DecidableEq, Repr

/-- Applies one operation to a cache (`remove`'s returned slot is dropped). -/
def Cache.apply {T : Type} (c : Cache T) : Op T → Cache T
  | Op.create key => c.create key
  | Op.update key value now => c.update key value now
  | Op.remove key => (c.remove key).2
  | Op.clean key => c.clean key

/-- Runs a list of operations from left to right. -/
def Cache.run {T : Type} (c : Cache T) (ops : List (Op T)) : Cache T :=
  ops.foldl Cache.apply c

/-- Helper: `apply` never changes the `ttl` field. -/
theorem Cache.apply_ttl {T : Type} (c : Cache T) (op : Op T) : (c.apply op).ttl = c.ttl := by
  cases op with
  | create key => rfl
  | update key value now =>
      cases hkey : c.items key <;> simp [Cache.apply, Cache.update, Cache.create, hkey]
  | remove key => rfl
  | clean key =>
      cases hkey : c.items key <;> simp [Cache.apply, Cache.clean, hkey]

/-- C1 counterexample: writing to an absent key of a fresh cache leaves the
slot declared-empty, so an immediate read returns `Empty`, not `Value`. -/
theorem write_absent_key_not_value :
    ((Cache.new Nat 1000).update "key" 5 7).get "key" 7 = CacheOption.Empty ∧
    ((Cache.new Nat 1000).update "key" 5 7).get "key" 7 ≠ CacheOption.Value 5 := by
  constructor
  · rfl
  · intro h
    simp [Cache.new, Cache.update, Cache.create, Cache.get] at h

/-- C1 (amended): `update` on an absent key only implicitly declares the key
(the slot becomes declared-empty and the value argument is discarded), so a
subsequent read returns `Empty`, not `Value`. -/
theorem write_absent_key_only_declares {T : Type} (c : Cache T) (k : String) (v : T)
    (now t : Nat) (h : c.items k = none) :
    (c.update k v now).items k = some none ∧ (c.update k v now).get k t = CacheOption.Empty := by
  simp [Cache.update, h, Cache.create, Cache.get]

/-- C1 witness. -/
theorem write_absent_key_only_declares_witness :
    ((Cache.new Nat 1000).update "key" 5 7).items "key" = some none ∧
    ((Cache.new Nat 1000).update "key" 5 7).get "key" 7 = CacheOption.Empty :=
  write_absent_key_only_declares (Cache.new Nat 1000) "key" 5 7 7 rfl

/-- C2: declare then write, then read strictly before the write time plus the
ttl (no u128 overflow in `ttl + write time`), yields `Value` of the written
value. -/
theorem declare_write_read_roundtrip {T : Type} (c : Cache T) (k : String) (v : T)
    (tw tr : Nat) (hr : tr < tw + c.ttl) (hov : c.ttl + tw < U128MOD) :
    ((c.create k).update k v tw).get k tr = CacheOption.Value v := by
  have h1 : ((c.create k).update k v tw).items k
      = some (some (CacheValue.new v c.ttl tw)) := by
    simp [Cache.create, Cache.update]
  have hge : c.ttl + tw ≥ tr := by omega
  simp [Cache.get, h1, CacheValue.new, Nat.mod_eq_of_lt hov, hge]

/-- C2 witness. -/
theorem declare_write_read_roundtrip_witness :
    (((Cache.new Nat 1000).create "k").update "k" 42 10).get "k" 500 = CacheOption.Value 42 :=
  declare_write_read_roundtrip (Cache.new Nat 1000) "k" 42 10 500 (by norm_num [Cache.new])
    (by norm_num [Cache.new, U128MOD])

/-- C3: `remove` deletes the key (a subsequent read returns `Undefined` at any
time, whatever the prior slot state) and returns the slot that existed, or
`none` when the key was absent. -/
theorem remove_then_read_undefined {T : Type} (c : Cache T) (k : String) (now : Nat) :
    ((c.remove k).2).get k now = CacheOption.Undefined ∧ (c.remove k).1 = c.items k := by
  constructor
  · simp [Cache.remove, Cache.get]
  · rfl

/-- C4: `clean` on a present key resets the slot to declared-empty (so a read
returns `Empty`), and on an absent key is a no-op that does not declare the
key (a read still returns `Undefined`). -/
theorem clear_resets_or_noop {T : Type} (c : Cache T) (k : String) (now : Nat) :
    (∀ s, c.items k = some s →
      (c.clean k).items k = some none ∧ (c.clean k).get k now = CacheOption.Empty) ∧
    (c.items k = none →
      c.clean k = c ∧ (c.clean k).get k now = CacheOption.Undefined) := by
  constructor
  · intro s h
    simp [Cache.clean, h, Cache.get]
  · intro h
    constructor
    · simp [Cache.clean, h]
    · simp [Cache.clean, h, Cache.get]

/-- C4 witness: present-key case on a declared key, absent-key case on a fresh
cache. -/
theorem clear_resets_or_noop_witness :
    ((((Cache.new Nat 5).create "a").clean "a").items "a" = some none ∧
      (((Cache.new Nat 5).create "a").clean "a").get "a" 0 = CacheOption.Empty) ∧
    ((Cache.new Nat 5).clean "a" = Cache.new Nat 5 ∧
      ((Cache.new Nat 5).clean "a").get "a" 0 = CacheOption.Undefined) :=
  ⟨(clear_resets_or_noop ((Cache.new Nat 5).create "a") "a" 0).1 none rfl,
   (clear_resets_or_noop (Cache.new Nat 5) "a" 0).2 rfl⟩

/-- C5: `create` (the spec's `declare`) always sets the slot to declared-empty,
overwriting whatever was stored, so a read returns `Empty`; declaring twice in
succession leaves the read `Empty` both times. -/
theorem declare_idempotent_reset {T : Type} (c : Cache T) (k : String) (now : Nat) :
    (c.create k).items k = some none ∧
    (c.create k).get k now = CacheOption.Empty ∧
    ((c.create k).create k).get k now = CacheOption.Empty := by
  refine ⟨?_, ?_, ?_⟩ <;> simp [Cache.create, Cache.get]

/-- C6: a read of a declared slot returns `Value` precisely when
`ttl_timestamp ≥ now` (so equality at the exact expiry instant still yields
`Value`), and returns `Expired` precisely when `ttl_timestamp < now`. -/
theorem read_declared_boundary {T : Type} (c : Cache T) (k : String) (cv : CacheValue T)
    (now : Nat) (h : c.items k = some (some cv)) :
    (c.get k now = CacheOption.Value cv.value ↔ cv.ttl_timestamp ≥ now) ∧
    (c.get k now = CacheOption.Expired ↔ cv.ttl_timestamp < now) := by
  by_cases hc : cv.ttl_timestamp ≥ now
  · simp [Cache.get, h, hc]
  · simp [Cache.get, h, hc]
    omega

/-- C6 witness: a slot expiring exactly at the read instant still reads as
`Value`, and a slot with a strictly earlier expiry reads as `Expired`. -/
theorem read_declared_boundary_witness :
    ((((Cache.new Nat 5).create "k").update "k" 3 10).get "k" 15
        = CacheOption.Value (3 : Nat) ↔ (15 : Nat) ≥ 15) ∧
    ((((Cache.new Nat 5).create "k").update "k" 3 10).get "k" 15
        = CacheOption.Expired ↔ (15 : Nat) < 15) :=
  read_declared_boundary (((Cache.new Nat 5).create "k").update "k" 3 10) "k"
    (CacheValue.mk 3 15) 15 rfl

/-- C7: with `ttl = 0`, a value actually written (the key is present, so
`update` stores it) and read at any strictly later instant yields `Expired`. -/
theorem zero_ttl_write_expires {T : Type} (c : Cache T) (k : String) (v : T)
    (s : Option (CacheValue T)) (tw tr : Nat) (httl : c.ttl = 0)
    (hpres : c.items k = some s) (hlt : tw < tr) :
    (c.update k v tw).get k tr = CacheOption.Expired := by
  have h1 : (c.update k v tw).items k = some (some (CacheValue.new v c.ttl tw)) := by
    simp [Cache.update, hpres]
  have h2 : (CacheValue.new v c.ttl tw).ttl_timestamp < tr := by
    have hle : (c.ttl + tw) % U128MOD ≤ c.ttl + tw := Nat.mod_le _ _
    simp only [CacheValue.new]
    omega
  simp [Cache.get, h1]
  omega

/-- C7 witness. -/
theorem zero_ttl_write_expires_witness :
    (((Cache.new Nat 0).create "k").update "k" 9 10).get "k" 11 = CacheOption.Expired :=
  zero_ttl_write_expires ((Cache.new Nat 0).create "k") "k" 9 none 10 11 rfl rfl
    (by norm_num)

/-- C8: `unwrap` returns the payload exactly on a `Value` outcome and signals
the missing-value fault (the Rust panic, modelled as `Except.error`) exactly
on `Empty`, `Undefined` and `Expired`; every other cache operation is a total
function in this development and signals no fault. -/
theorem unwrap_ok_iff_value {T : Type} (o : CacheOption T) (v : T) :
    (o.unwrap = Except.ok v ↔ o = CacheOption.Value v) ∧
    (o.unwrap = Except.error "There is no value for unwrap." ↔
      ∀ w, o ≠ CacheOption.Value w) := by
  cases o with
  | Value a => simp [CacheOption.unwrap]
  | Empty => simp [CacheOption.unwrap]
  | Undefined => simp [CacheOption.unwrap]
  | Expired => simp [CacheOption.unwrap]

/-- Helper: a timed value stored after one operation was either already stored
or was produced by that very operation being an `update` of that key, with
`ttl_timestamp` computed by `CacheValue.new` from the cache's `ttl` and the
sampled clock. -/
theorem Cache.apply_items_provenance {T : Type} (c : Cache T) (op : Op T) (k : String)
    (cv : CacheValue T) (h : (c.apply op).items k = some (some cv)) :
    c.items k = some (some cv) ∨
    ∃ v now, op = Op.update k v now ∧ cv = CacheValue.new v c.ttl now := by
  cases op with
  | create key =>
      by_cases hk : k = key
      · simp [Cache.apply, Cache.create, hk] at h
      · left
        simpa [Cache.apply, Cache.create, hk] using h
  | update key value now =>
      cases hkey : c.items key with
      | none =>
          by_cases hk : k = key
          · simp [Cache.apply, Cache.update, hkey, Cache.create, hk] at h
          · left
            simpa [Cache.apply, Cache.update, hkey, Cache.create, hk] using h
      | some s =>
          by_cases hk : k = key
          · right
            simp [Cache.apply, Cache.update, hkey, hk] at h
            exact ⟨value, now, by rw [hk], h.symm⟩
          · left
            simpa [Cache.apply, Cache.update, hkey, hk] using h
  | remove key =>
      by_cases hk : k = key
      · simp [Cache.apply, Cache.remove, hk] at h
      · left
        simpa [Cache.apply, Cache.remove, hk] using h
  | clean key =>
      cases hkey : c.items key with
      | none =>
          left
          simpa [Cache.apply, Cache.clean, hkey] using h
      | some s =>
          by_cases hk : k = key
          · simp [Cache.apply, Cache.clean, hkey, hk] at h
          · left
            simpa [Cache.apply, Cache.clean, hkey, hk] using h

/-- Helper: `run` never changes the `ttl` field. -/
theorem Cache.run_ttl {T : Type} (ops : List (Op T)) (c : Cache T) :
    (c.run ops).ttl = c.ttl := by
  induction ops generalizing c with
  | nil => rfl
  | cons op ops ih => exact (ih (c.apply op)).trans (Cache.apply_ttl c op)

/-- Helper: a timed value stored after a run of operations was either stored
at the start or produced by some `update` in the run against the (constant)
`ttl`. -/
theorem Cache.run_provenance {T : Type} (ops : List (Op T)) (c : Cache T) (k : String)
    (cv : CacheValue T) (h : (c.run ops).items k = some (some cv)) :
    c.items k = some (some cv) ∨
    ∃ v now, Op.update k v now ∈ ops ∧ cv = CacheValue.new v c.ttl now := by
  induction ops generalizing c with
  | nil => exact Or.inl h
  | cons op ops ih =>
      rcases ih (c.apply op) h with h1 | ⟨v, now, hmem, hcv⟩
      · rcases Cache.apply_items_provenance c op k cv h1 with h2 | ⟨v, now, hop, hcv⟩
        · exact Or.inl h2
        · exact Or.inr ⟨v, now, by simp [hop], hcv⟩
      · refine Or.inr ⟨v, now, List.mem_cons_of_mem _ hmem, ?_⟩
        rw [hcv, Cache.apply_ttl]

/-- C9: from the initial state, every operation sequence leaves the `ttl`
field at its constructed value, and every stored timed value has
`ttl_timestamp` equal to `ttl` plus the clock sampled at the `update` that
produced it (assuming that u128 addition does not overflow). -/
theorem ttl_timestamp_invariant {T : Type} (ttl : Nat) (ops : List (Op T))
    (hov : ∀ k v now, Op.update k v now ∈ ops → ttl + now < U128MOD) :
    ((Cache.new T ttl).run ops).ttl = ttl ∧
    ∀ k cv, ((Cache.new T ttl).run ops).items k = some (some cv) →
      ∃ v now, Op.update k v now ∈ ops ∧ cv.value = v ∧ cv.ttl_timestamp = ttl + now := by
  constructor
  · exact Cache.run_ttl ops (Cache.new T ttl)
  · intro k cv h
    rcases Cache.run_provenance ops (Cache.new T ttl) k cv h with h1 | ⟨v, now, hmem, hcv⟩
    · simp [Cache.new] at h1
    · refine ⟨v, now, hmem, ?_, ?_⟩
      · rw [hcv]
        rfl
      · rw [hcv]
        show (ttl + now) % U128MOD = ttl + now
        exact Nat.mod_eq_of_lt (hov k v now hmem)

/-- C9 witness: a concrete run (declare then write at clock 10 with ttl 7)
stores the value 5 with expiry 17. -/
theorem ttl_timestamp_invariant_witness :
    ∃ v now, Op.update "k" v now ∈ [Op.create "k", Op.update "k" (5 : Nat) 10] ∧
      (CacheValue.mk (5 : Nat) 17).value = v ∧
      (CacheValue.mk (5 : Nat) 17).ttl_timestamp = 7 + now :=
  (ttl_timestamp_invariant 7 [Op.create "k", Op.update "k" (5 : Nat) 10]
      (by
        intro k v now hmem
        simp only [List.mem_cons, List.mem_singleton] at hmem
        rcases hmem with h | h | h
        · exact absurd h (by simp)
        · obtain ⟨-, -, h3⟩ := Op.update.inj h
          rw [h3]
          norm_num [U128MOD]
        · exact absurd h (by simp))).2
    "k" (CacheValue.mk (5 : Nat) 17) rfl

/-- C10: each of the four mutating operations on a key leaves every other
key's slot (presence and contents) and the cache's `ttl` unchanged. -/
theorem frame_distinct_keys {T : Type} (c : Cache T) (k kp : String) (v : T)
    (now : Nat) (h : k ≠ kp) :
    ((c.create k).items kp = c.items kp ∧ (c.create k).ttl = c.ttl) ∧
    ((c.update k v now).items kp = c.items kp ∧ (c.update k v now).ttl = c.ttl) ∧
    (((c.remove k).2).items kp = c.items kp ∧ ((c.remove k).2).ttl = c.ttl) ∧
    ((c.clean k).items kp = c.items kp ∧ (c.clean k).ttl = c.ttl) := by
  have hp : ¬ (kp = k) := fun hh => h hh.symm
  refine ⟨⟨?_, ?_⟩, ⟨?_, ?_⟩, ⟨?_, ?_⟩, ⟨?_, ?_⟩⟩
  · simp [Cache.create, hp]
  · rfl
  · cases hkey : c.items k <;> simp [Cache.update, hkey, Cache.create, hp]
  · cases hkey : c.items k <;> simp [Cache.update, hkey, Cache.create, hp]
  · simp [Cache.remove, hp]
  · rfl
  · cases hkey : c.items k <;> simp [Cache.clean, hkey, hp]
  · cases hkey : c.items k <;> simp [Cache.clean, hkey, hp]

/-- C10 witness. -/
theorem frame_distinct_keys_witness :
    let c := ((Cache.new Nat 5).create "b").update "b" 3 10
    ((c.create "a").items "b" = c.items "b" ∧ (c.create "a").ttl = c.ttl) ∧
    ((c.update "a" 9 20).items "b" = c.items "b" ∧ (c.update "a" 9 20).ttl = c.ttl) ∧
    (((c.remove "a").2).items "b" = c.items "b" ∧ ((c.remove "a").2).ttl = c.ttl) ∧
    ((c.clean "a").items "b" = c.items "b" ∧ (c.clean "a").ttl = c.ttl) :=
  frame_distinct_keys (((Cache.new Nat 5).create "b").update "b" 3 10) "a" "b" 9 20
    (by decide)
